import Mathlib

/-!
Verification of PhraseForge (src/src/main.rs), a passphrase generator.

The Rust code is shallowly embedded: pure helpers become Lean functions on
lists of lines; file-system state in the fetch/build pipeline becomes an
explicit `Storage` record; the thread-local random generator becomes an
explicit stream `s : Nat -> Nat` of raw draws, one value consumed per random
decision (`random_range` and each slice `choose`); fallible I/O becomes
`Option`.  Machine integer `u32` values are represented by `Nat` with the
explicit bound `2 ^ 32` where the Rust code can overflow (string parsing).
-/

/-! ## Whitespace tokenization (Rust `str::split_whitespace`) -/

/-- Accumulator-based splitter: `acc` holds the current in-progress token,
reversed.  Mirrors the semantics of Rust `split_whitespace`: maximal runs of
non-whitespace characters, empty tokens never produced. -/
def splitWsAux : List Char → List Char → List (List Char)
  | [], acc => if acc.isEmpty then [] else [acc.reverse]
  | c :: rest, acc =>
    if c.isWhitespace then
      if acc.isEmpty then splitWsAux rest [] else acc.reverse :: splitWsAux rest []
    else splitWsAux rest (c :: acc)

def splitWs (cs : List Char) : List (List Char) := splitWsAux cs []

/-- The token list of a line, as strings (Rust `line.split_whitespace()`). -/
def splitWsStr (s : String) : List String := (splitWs s.data).map String.mk

/-- `line.split_whitespace().next().unwrap_or("")`. -/
def first_token (s : String) : String := (splitWsStr s).headD ""

/-! ## Decimal parsing (Rust `str::parse::<u32>()`) -/

/-- Value of a list of decimal digit characters, most significant first. -/
def digitsVal (cs : List Char) : Nat :=
  cs.foldl (fun a c => a * 10 + (c.toNat - 48)) 0

/-- Strip the single optional leading plus sign `u32::from_str` accepts. -/
def strip_plus (cs : List Char) : List Char :=
  match cs with
  | c :: rest => if c = '+' then rest else c :: rest
  | [] => []

/-- Rust `u32::from_str`: an optional leading plus sign, then one or more
ASCII digits, and the value must fit in 32 bits; anything else is an error
(modelled as `none`). -/
def parse_u32 (s : String) : Option Nat :=
  let cs := strip_plus s.data
  if cs.isEmpty then none
  else if cs.all Char.isDigit then
    if digitsVal cs < 2 ^ 32 then some (digitsVal cs) else none
  else none

/-! ## Data model (`WordEntry`, `WordType`, `WordLists`) -/

structure WordEntry where
  word : String
  frequency : Nat
deriving DecidableEq, Repr

inductive WordType where
  | Adjective : List WordEntry → WordType
  | Noun : List WordEntry → WordType
  | Verb : List WordEntry → WordType
  | Adverb : List WordEntry → WordType
deriving DecidableEq, Repr

structure WordLists where
  adjectives : WordType
  nouns : WordType
  verbs : WordType
  adverbs : WordType
deriving DecidableEq, Repr

/-! ## Loading word lists (`load_word_list`, `load_all_word_lists`) -/

/-- One iteration of the `filter_map` closure in `load_word_list`: take the
first two whitespace tokens as word and frequency, parse the frequency as
`u32`, and drop the line if anything is missing or unparsable. -/
def parse_word_entry (line : String) : Option WordEntry :=
  match splitWsStr line with
  | word :: freq_str :: _ =>
    (parse_u32 freq_str).map (fun frequency => { word := word, frequency := frequency })
  | _ => none

/-- `load_word_list`, applied to the lines of the file. -/
def load_word_list (lines : List String) : List WordEntry :=
  lines.filterMap parse_word_entry

/-- `load_all_word_lists`, applied to the lines of the four cached files. -/
def load_all_word_lists (adjLines nounLines verbLines advLines : List String) : WordLists :=
  { adjectives := WordType.Adjective (load_word_list adjLines)
    nouns := WordType.Noun (load_word_list nounLines)
    verbs := WordType.Verb (load_word_list verbLines)
    adverbs := WordType.Adverb (load_word_list advLines) }

/-- The entries carried by a tagged word list, whatever its tag. -/
def entriesOf : WordType → List WordEntry
  | WordType.Adjective es => es
  | WordType.Noun es => es
  | WordType.Verb es => es
  | WordType.Adverb es => es

/-- All entries of the four lists together. -/
def allEntries (wl : WordLists) : List WordEntry :=
  entriesOf wl.adjectives ++ entriesOf wl.nouns ++ entriesOf wl.verbs ++ entriesOf wl.adverbs

/-! ## Word list builder (`generate_word_list`) -/

/-- `first_word.chars().next().map(is_ascii_alphabetic).unwrap_or(false)`.
`Char.isAlpha` is exactly the ASCII alphabetic test. -/
def first_char_ascii_alpha (w : String) : Bool :=
  match w.data with
  | [] => false
  | ch :: _ => ch.isAlpha

/-- One iteration of the dictionary loop in `generate_word_list`: insert the
line's first token into the set when it is non-empty and starts with an ASCII
letter.  The `HashSet` is modelled as a duplicate-free list (only membership
is ever consulted). -/
def known_words_step (acc : List String) (line : String) : List String :=
  if !(first_token line == "") && first_char_ascii_alpha (first_token line) then
    if first_token line ∈ acc then acc else acc ++ [first_token line]
  else acc

/-- Step 1 of `generate_word_list`: the set of valid first words of the
dictionary index file. -/
def known_words (dictLines : List String) : List String :=
  dictLines.foldl known_words_step []

/-- `generate_word_list`: keep exactly the corpus lines whose first token is a
known dictionary word, in corpus order. -/
def generate_word_list (dictLines corpusLines : List String) : List String :=
  let dictionary_words := known_words dictLines
  corpusLines.filter
    (fun line =>
      let first_word := first_token line
      !(first_word == "") && decide (first_word ∈ dictionary_words))

/-! ## Decimal rendering of the numeric token (Rust `format!` of a `u32`) -/

/-- Fuel-based digit accumulator; fuel `n + 1` always suffices for `n`. -/
def natDigitsAux : Nat → Nat → List Char → List Char
  | 0, _, acc => acc
  | fuel + 1, n, acc =>
    if n < 10 then Char.ofNat (48 + n % 10) :: acc
    else natDigitsAux fuel (n / 10) (Char.ofNat (48 + n % 10) :: acc)

/-- Decimal digit characters of `n`, most significant first. -/
def natDigits (n : Nat) : List Char := natDigitsAux (n + 1) n []

/-- Decimal string of `n`, as Rust `Display` for unsigned integers prints. -/
def natString (n : Nat) : String := String.mk (natDigits n)

/-! ## Pluralizer (external crate `inflector`, `to_plural`) -/

/-- String suffix test on the underlying character lists. -/
def ends_with (s : String) (suf : String) : Bool := suf.data.isSuffixOf s.data

/-- Models the external `inflector` crate's `to_plural`: a few common
irregulars, `-es` after sibilant endings, plain `-s` otherwise.  The theorems
below depend only on when this function is applied, not on its rules. -/
def to_plural (s : String) : String :=
  if s = "man" then "men"
  else if s = "woman" then "women"
  else if s = "child" then "children"
  else if ends_with s "s" || ends_with s "x" || ends_with s "z"
      || ends_with s "ch" || ends_with s "sh" then s ++ "es"
  else s ++ "s"

/-! ## Random selection and passphrase assembly

The thread-local generator is an explicit stream `s : Nat → Nat` of raw
draws.  `generate_password` consumes `s 0` for `random_range(1..999)` and
`s 1 .. s 4` for the four slice `choose` calls, in source order. -/

/-- `random_range(1..999)`: a uniform draw in the half-open range `[1, 999)`,
obtained from one raw draw `v`. -/
def draw_num (v : Nat) : Nat := 1 + v % 998

/-- `pick_random_above_frequency`: filter to entries strictly above the
threshold, then `choose` (uniform index from the raw draw `v`), yielding the
empty string when the filtered slice is empty (`unwrap_or_else`). -/
def pick_random_above_frequency (word_entries : List WordEntry) (min_frequency : Nat)
    (v : Nat) : String :=
  let filtered := word_entries.filter (fun entry => decide (min_frequency < entry.frequency))
  (((filtered.get? (v % filtered.length)).map WordEntry.word).getD "")

/-- `generate_password` (frequency variant). -/
def generate_password (word_lists : WordLists) (min_frequency : Nat) (s : Nat → Nat) : String :=
  let num := draw_num (s 0)
  let adj :=
    match word_lists.adjectives with
    | WordType.Adjective entries => pick_random_above_frequency entries min_frequency (s 1)
    | _ => ""
  let noun :=
    match word_lists.nouns with
    | WordType.Noun entries =>
      let n := pick_random_above_frequency entries min_frequency (s 2)
      if 1 < num ∧ ¬(n = "") then to_plural n else n
    | _ => ""
  let verb :=
    match word_lists.verbs with
    | WordType.Verb entries => pick_random_above_frequency entries min_frequency (s 3)
    | _ => ""
  let adv :=
    match word_lists.adverbs with
    | WordType.Adverb entries => pick_random_above_frequency entries min_frequency (s 4)
    | _ => ""
  natString num ++ "-" ++ adj ++ "-" ++ noun ++ "-" ++ verb ++ "-" ++ adv

/-- The adjective component of `generate_password`, as a projection. -/
def adj_pick (word_lists : WordLists) (min_frequency : Nat) (s : Nat → Nat) : String :=
  match word_lists.adjectives with
  | WordType.Adjective entries => pick_random_above_frequency entries min_frequency (s 1)
  | _ => ""

/-- The noun chosen before any pluralization. -/
def noun_pick (word_lists : WordLists) (min_frequency : Nat) (s : Nat → Nat) : String :=
  match word_lists.nouns with
  | WordType.Noun entries => pick_random_above_frequency entries min_frequency (s 2)
  | _ => ""

/-- The noun component after the conditional pluralization. -/
def noun_field (word_lists : WordLists) (min_frequency : Nat) (s : Nat → Nat) : String :=
  let n := noun_pick word_lists min_frequency s
  if 1 < draw_num (s 0) ∧ ¬(n = "") then to_plural n else n

/-- The verb component of `generate_password`. -/
def verb_pick (word_lists : WordLists) (min_frequency : Nat) (s : Nat → Nat) : String :=
  match word_lists.verbs with
  | WordType.Verb entries => pick_random_above_frequency entries min_frequency (s 3)
  | _ => ""

/-- The adverb component of `generate_password`. -/
def adv_pick (word_lists : WordLists) (min_frequency : Nat) (s : Nat → Nat) : String :=
  match word_lists.adverbs with
  | WordType.Adverb entries => pick_random_above_frequency entries min_frequency (s 4)
  | _ => ""

/-- No word stored in the lists contains a hyphen character. -/
def hyphen_free_word_lists (wl : WordLists) : Prop :=
  ∀ e ∈ allEntries wl, ∀ c ∈ e.word.data, c ≠ '-'

instance (wl : WordLists) : Decidable (hyphen_free_word_lists wl) := by
  unfold hyphen_free_word_lists; infer_instance

/-! ## Splitting a string at hyphens (field structure of the output) -/

/-- Split a character list at hyphen characters, keeping empty fields, as
`str::split` with delimiter `-` does. -/
def splitHyphen : List Char → List (List Char)
  | [] => [[]]
  | c :: rest =>
    if c = '-' then [] :: splitHyphen rest
    else
      match splitHyphen rest with
      | [] => [[c]]
      | f :: fs => (c :: f) :: fs

/-! ## File-system model of the fetch/build pipeline

The storage directory is modelled by the files the pipeline reads or writes:
the `dict/` subdirectory with its four index files (`none` when absent), the
frequency corpus `en_full.txt`, and the four derived word-list files.  The
archive written and deleted inside the dictionary fetch has no net effect and
is not modelled.  The remote contents reached by the two downloads are passed
as parameters.  Opening a missing file panics in Rust; such runs are `none`. -/

structure DictDir where
  index_adj : List String
  index_noun : List String
  index_verb : List String
  index_adv : List String
deriving DecidableEq, Repr

structure Storage where
  dict : Option DictDir
  corpus : Option (List String)
  adjectives_txt : Option (List String)
  nouns_txt : Option (List String)
  verbs_txt : Option (List String)
  adverbs_txt : Option (List String)
deriving DecidableEq, Repr

/-- `download_and_extract_wordnet_dictionary`: downloads the archive, writes
it, extracts it into `dict/`, removes the archive.  Net effect: `dict/` now
holds the remote index files. -/
def download_and_extract_wordnet_dictionary (remoteDict : DictDir) (st : Storage) : Storage :=
  { st with dict := some remoteDict }

/-- `download_master_word_list`: writes the downloaded corpus to
`en_full.txt`. -/
def download_master_word_list (remoteCorpus : List String) (st : Storage) : Storage :=
  { st with corpus := some remoteCorpus }

/-- `word_lists_exist`: all four derived files are present. -/
def word_lists_exist (st : Storage) : Bool :=
  st.adjectives_txt.isSome && st.nouns_txt.isSome && st.verbs_txt.isSome && st.adverbs_txt.isSome

/-- `generate_word_lists` with `save_word_list`: reads each index file and the
corpus (panicking, hence `none`, if either is missing) and unconditionally
creates/overwrites each of the four output files. -/
def generate_word_lists (st : Storage) : Option Storage :=
  match st.dict, st.corpus with
  | some d, some c =>
    some { st with
      adjectives_txt := some (generate_word_list d.index_adj c)
      nouns_txt := some (generate_word_list d.index_noun c)
      verbs_txt := some (generate_word_list d.index_verb c)
      adverbs_txt := some (generate_word_list d.index_adv c) }
  | _, _ => none

/-- `load_all_word_lists` reading from the storage model; opening a missing
file panics, hence `none`. -/
def load_all_word_lists_fs (st : Storage) : Option WordLists :=
  match st.adjectives_txt, st.nouns_txt, st.verbs_txt, st.adverbs_txt with
  | some a, some n, some v, some d => some (load_all_word_lists a n v d)
  | _, _, _, _ => none

/-- `load_or_generate_word_lists`: fetch and rebuild when the cache is
incomplete or the force flag is set, then load.  Returns the final storage
state together with the loaded lists. -/
def load_or_generate_word_lists (remoteDict : DictDir) (remoteCorpus : List String)
    (st : Storage) (force_download : Bool) : Option (Storage × WordLists) := do
  let st1 ←
    if !word_lists_exist st || force_download then
      generate_word_lists
        (download_master_word_list remoteCorpus
          (download_and_extract_wordnet_dictionary remoteDict st))
    else some st
  let wordlists ← load_all_word_lists_fs st1
  some (st1, wordlists)

/-! ## Concrete storage states used in the pipeline theorems below -/

/-- Storage state with the dictionary subdirectory present but one derived
word-list file missing. -/
def dict_present_cache_incomplete : Storage :=
  { dict := some { index_adj := [], index_noun := [], index_verb := [], index_adv := [] }
    corpus := none
    adjectives_txt := some []
    nouns_txt := none
    verbs_txt := some []
    adverbs_txt := some [] }

/-- Storage state whose four derived files all exist. -/
def cache_complete_storage : Storage :=
  { dict := none
    corpus := none
    adjectives_txt := some ["aa 1"]
    nouns_txt := some ["nn 2"]
    verbs_txt := some ["vv 3"]
    adverbs_txt := some ["dd 4"] }

/-- Storage state with an existing adjectives file and a deleted nouns file. -/
def adjectives_present_nouns_missing : Storage :=
  { dict := none
    corpus := none
    adjectives_txt := some ["keep 1"]
    nouns_txt := none
    verbs_txt := some []
    adverbs_txt := some [] }

/-- Storage state whose four derived files all exist, for the C4 witness. -/
def cache_complete_storage2 : Storage :=
  { dict := some { index_adj := ["x 1"], index_noun := [], index_verb := [], index_adv := [] }
    corpus := some []
    adjectives_txt := some ["pp 7"]
    nouns_txt := some ["qq 8"]
    verbs_txt := some ["rr 9"]
    adverbs_txt := some ["ss 10"] }

/-! ## Tokens produced by whitespace splitting are non-empty and whitespace-free -/

theorem splitWsAux_tokens_wf : ∀ (cs acc : List Char),
    (∀ c ∈ acc, c.isWhitespace = false) →
    ∀ t ∈ splitWsAux cs acc, t ≠ [] ∧ ∀ c ∈ t, c.isWhitespace = false := by
  intro cs
  induction cs with
  | nil =>
    intro acc hacc t ht
    simp only [splitWsAux] at ht
    split at ht
    · simp at ht
    · case isFalse h =>
        simp only [List.mem_singleton] at ht
        subst ht
        refine ⟨?_, ?_⟩
        · have h' : acc ≠ [] := by simpa [List.isEmpty_iff] using h
          simpa using h'
        · intro x hx
          exact hacc x (List.mem_reverse.mp hx)
  | cons c rest ih =>
    intro acc hacc t ht
    simp only [splitWsAux] at ht
    split at ht
    · split at ht
      · exact ih [] (by simp) t ht
      · case isFalse he =>
          rcases List.mem_cons.mp ht with rfl | hmem
          · refine ⟨?_, ?_⟩
            · have h' : acc ≠ [] := by simpa [List.isEmpty_iff] using he
              simpa using h'
            · intro x hx
              exact hacc x (List.mem_reverse.mp hx)
          · exact ih [] (by simp) t hmem
    · case isFalse hw =>
        refine ih (c :: acc) ?_ t ht
        intro x hx
        rcases List.mem_cons.mp hx with rfl | hx
        · simpa using hw
        · exact hacc x hx

theorem splitWs_tokens_wf (cs : List Char) :
    ∀ t ∈ splitWs cs, t ≠ [] ∧ ∀ c ∈ t, c.isWhitespace = false :=
  splitWsAux_tokens_wf cs [] (by simp)

theorem parse_word_entry_eq (line : String) (w f : String) (rest : List String)
    (h : splitWsStr line = w :: f :: rest) :
    parse_word_entry line =
      (parse_u32 f).map (fun freq => { word := w, frequency := freq }) := by
  unfold parse_word_entry
  rw [h]

theorem load_word_list_word_wf (lines : List String) :
    ∀ e ∈ load_word_list lines, e.word ≠ "" ∧ ∀ c ∈ e.word.data, c.isWhitespace = false := by
  intro e he
  rcases List.mem_filterMap.mp he with ⟨line, _hline, hp⟩
  rcases h1 : splitWsStr line with _ | ⟨w, tl⟩
  · unfold parse_word_entry at hp
    rw [h1] at hp
    simp at hp
  · rcases tl with _ | ⟨f, rest⟩
    · unfold parse_word_entry at hp
      rw [h1] at hp
      simp at hp
    · rw [parse_word_entry_eq line w f rest h1] at hp
      rcases Option.map_eq_some'.mp hp with ⟨freq, _hf, hew⟩
      have hword : e.word = w := by rw [← hew]
      have hwmem : w ∈ splitWsStr line := by
        rw [h1]; exact List.mem_cons_self _ _
      rcases List.mem_map.mp hwmem with ⟨t, htmem, hts⟩
      have hwf := splitWs_tokens_wf line.data t htmem
      have hdata : e.word.data = t := by
        rw [hword, ← hts]
      refine ⟨?_, ?_⟩
      · intro hcon
        apply hwf.1
        rw [← hdata, hcon]
      · intro c hc
        exact hwf.2 c (hdata ▸ hc)

/-- C9: every WordEntry produced by load_word_list (and hence every entry in
all four lists returned by load_all_word_lists) has a non-empty word
containing no whitespace, because the word is the first whitespace-delimited
token of a line that also yielded a second token. -/
theorem loaded_word_entries_wellformed :
    ∀ (adjLines nounLines verbLines advLines : List String) (e : WordEntry),
      (e ∈ load_word_list adjLines ∨
        e ∈ allEntries (load_all_word_lists adjLines nounLines verbLines advLines)) →
      e.word ≠ "" ∧ ∀ c ∈ e.word.data, c.isWhitespace = false := by
  intro adjLines nounLines verbLines advLines e he
  rcases he with he | he
  · exact load_word_list_word_wf adjLines e he
  · simp only [allEntries, load_all_word_lists, entriesOf, List.mem_append] at he
    rcases he with ((he | he) | he) | he
    · exact load_word_list_word_wf adjLines e he
    · exact load_word_list_word_wf nounLines e he
    · exact load_word_list_word_wf verbLines e he
    · exact load_word_list_word_wf advLines e he

theorem loaded_word_entries_wellformed_witness :
    ({ word := "cat", frequency := 5 } : WordEntry).word ≠ "" ∧
      ∀ c ∈ ({ word := "cat", frequency := 5 } : WordEntry).word.data, c.isWhitespace = false :=
  loaded_word_entries_wellformed ["cat 5"] [] [] [] { word := "cat", frequency := 5 }
    (Or.inl (by decide))

/-! ## Lines with unparsable frequencies are silently dropped -/

/-- C10: load_word_list silently drops any line whose second token is not a
valid decimal 32-bit unsigned integer; in particular a well-formed
`word frequency` line whose frequency is at least 2 to the 32 is excluded
from the loaded list rather than loaded or reported. -/
theorem load_word_list_drops_unparsable :
    (∀ (pre post : List String) (line : String),
        (∃ w f rest, splitWsStr line = w :: f :: rest ∧ parse_u32 f = none) →
        load_word_list (pre ++ line :: post) = load_word_list pre ++ load_word_list post)
    ∧ (∀ (f : String) (k : Nat), parse_u32 f = some k → k < 2 ^ 32)
    ∧ (∀ f : String, f.data ≠ [] → f.data.all Char.isDigit = true →
        2 ^ 32 ≤ digitsVal f.data → parse_u32 f = none) := by
  refine ⟨?_, ?_, ?_⟩
  · intro pre post line hbad
    rcases hbad with ⟨w, f, rest, htok, hpf⟩
    have hnone : parse_word_entry line = none := by
      rw [parse_word_entry_eq line w f rest htok, hpf]
      rfl
    unfold load_word_list
    rw [List.filterMap_append]
    congr 1
    simp [hnone]
  · intro f k hpk
    simp only [parse_u32] at hpk
    split at hpk
    · exact absurd hpk (by simp)
    · split at hpk
      · split at hpk
        · rename_i hlt
          rw [Option.some_inj] at hpk
          omega
        · exact absurd hpk (by simp)
      · exact absurd hpk (by simp)
  · intro f hne hdigits hge
    have hsp : strip_plus f.data = f.data := by
      cases hd : f.data with
      | nil => simp [strip_plus]
      | cons c rest =>
        have hc : ¬(c = '+') := by
          intro hcp
          rw [hd, hcp] at hdigits
          simp only [List.all_cons, Bool.and_eq_true] at hdigits
          exact absurd hdigits.1 (by decide)
        simp [strip_plus, hc]
    simp only [parse_u32, hsp]
    have h1 : ¬(f.data.isEmpty = true) := by
      simpa [List.isEmpty_iff] using hne
    rw [if_neg h1, if_pos hdigits]
    have h2 : ¬(digitsVal f.data < 2 ^ 32) := by omega
    rw [if_neg h2]

theorem load_word_list_drops_unparsable_witness :
    load_word_list ["aa 1", "word 4294967296", "bb 2"] =
      load_word_list ["aa 1"] ++ load_word_list ["bb 2"]
    ∧ parse_u32 "4294967296" = none := by
  constructor
  · exact load_word_list_drops_unparsable.1 ["aa 1"] ["bb 2"] "word 4294967296"
      ⟨"word", "4294967296", [], by decide, by decide⟩
  · exact load_word_list_drops_unparsable.2.2 "4294967296" (by decide) (by decide) (by decide)

/-! ## The known-word set and the frequency filter (claim about the builder) -/

theorem known_words_step_mem (acc : List String) (line : String) (w : String) :
    w ∈ known_words_step acc line ↔
      w ∈ acc ∨ (first_token line = w ∧ first_char_ascii_alpha w = true) := by
  unfold known_words_step
  by_cases hcond : (!(first_token line == "") && first_char_ascii_alpha (first_token line)) = true
  · rw [if_pos hcond]
    by_cases hmem : first_token line ∈ acc
    · rw [if_pos hmem]
      constructor
      · exact Or.inl
      · rintro (h | ⟨rfl, _⟩)
        · exact h
        · exact hmem
    · rw [if_neg hmem]
      simp only [List.mem_append, List.mem_singleton]
      constructor
      · rintro (h | rfl)
        · exact Or.inl h
        · refine Or.inr ⟨rfl, ?_⟩
          simp only [Bool.and_eq_true] at hcond
          exact hcond.2
      · rintro (h | ⟨rfl, _⟩)
        · exact Or.inl h
        · exact Or.inr rfl
  · rw [if_neg hcond]
    constructor
    · exact Or.inl
    · rintro (h | ⟨hft, halpha⟩)
      · exact h
      · exfalso
        apply hcond
        rw [hft]
        simp only [Bool.and_eq_true]
        refine ⟨?_, halpha⟩
        have hne : ¬(w = "") := by
          intro he
          subst he
          exact absurd halpha (by decide)
        simp [hne]

theorem known_words_foldl_mem : ∀ (dictLines : List String) (acc : List String) (w : String),
    w ∈ dictLines.foldl known_words_step acc ↔
      w ∈ acc ∨ ∃ l ∈ dictLines, first_token l = w ∧ first_char_ascii_alpha w = true := by
  intro dictLines
  induction dictLines with
  | nil =>
    intro acc w
    simp
  | cons l ls ih =>
    intro acc w
    simp only [List.foldl_cons]
    rw [ih (known_words_step acc l) w, known_words_step_mem]
    constructor
    · rintro ((h | h) | ⟨l', hl', hw⟩)
      · exact Or.inl h
      · exact Or.inr ⟨l, by simp, h⟩
      · exact Or.inr ⟨l', by simp [hl'], hw⟩
    · rintro (h | ⟨l', hl', hw⟩)
      · exact Or.inl (Or.inl h)
      · rcases List.mem_cons.mp hl' with rfl | hl'
        · exact Or.inl (Or.inr hw)
        · exact Or.inr ⟨l', hl', hw⟩

theorem known_words_mem (dictLines : List String) (w : String) :
    w ∈ known_words dictLines ↔
      ∃ l ∈ dictLines, first_token l = w ∧ first_char_ascii_alpha w = true := by
  unfold known_words
  rw [known_words_foldl_mem]
  simp

theorem known_words_ne_empty (dictLines : List String) (w : String)
    (h : w ∈ known_words dictLines) : ¬(w = "") := by
  rcases (known_words_mem dictLines w).mp h with ⟨l, _, _, halpha⟩
  intro he
  subst he
  exact absurd halpha (by decide)

/-- C2: for every dictionary index file and frequency corpus,
generate_word_list returns exactly those entire corpus lines whose first
whitespace-delimited token is in the known-word set (first tokens of
dictionary lines whose first character is an ASCII letter), preserving the
corpus's original line order; in particular, for the dictionary lines
"cat 1 n ..." and "dog 1 n ..." and corpus lines "cat 50000", "dog 5",
"zzz 99999", the output is ["cat 50000", "dog 5"]. -/
theorem generate_word_list_spec :
    ∀ (dictLines corpusLines : List String),
      generate_word_list dictLines corpusLines =
        corpusLines.filter (fun line => decide (first_token line ∈ known_words dictLines))
      ∧ (∀ w, w ∈ known_words dictLines ↔
          ∃ l ∈ dictLines, first_token l = w ∧ first_char_ascii_alpha w = true)
      ∧ (generate_word_list dictLines corpusLines).Sublist corpusLines
      ∧ generate_word_list ["cat 1 n ...", "dog 1 n ..."]
          ["cat 50000", "dog 5", "zzz 99999"] = ["cat 50000", "dog 5"] := by
  intro dictLines corpusLines
  refine ⟨?_, fun w => known_words_mem dictLines w, ?_, by decide⟩
  · unfold generate_word_list
    apply List.filter_congr
    intro line _
    by_cases hmem : first_token line ∈ known_words dictLines
    · have hne : ¬(first_token line = "") := known_words_ne_empty _ _ hmem
      simp [hmem, hne]
    · simp [hmem]
  · unfold generate_word_list
    exact List.filter_sublist _

/-! ## Random pick: frequency filtering, emptiness, uniformity -/

theorem pick_filter_empty (entries : List WordEntry) (mf v : Nat)
    (h : entries.filter (fun e => decide (mf < e.frequency)) = []) :
    pick_random_above_frequency entries mf v = "" := by
  simp only [pick_random_above_frequency]
  rw [h]
  simp

theorem pick_mem (entries : List WordEntry) (mf v : Nat)
    (h : entries.filter (fun e => decide (mf < e.frequency)) ≠ []) :
    ∃ e ∈ entries, mf < e.frequency ∧
      pick_random_above_frequency entries mf v = e.word := by
  have hL : 0 < (entries.filter (fun e => decide (mf < e.frequency))).length :=
    List.length_pos.mpr h
  have hidx : v % (entries.filter (fun e => decide (mf < e.frequency))).length <
      (entries.filter (fun e => decide (mf < e.frequency))).length := Nat.mod_lt _ hL
  obtain ⟨e, hg⟩ : ∃ e, (entries.filter (fun e => decide (mf < e.frequency))).get?
      (v % (entries.filter (fun e => decide (mf < e.frequency))).length) = some e := by
    rw [List.get?_eq_get hidx]
    exact ⟨_, rfl⟩
  have hef : e ∈ entries.filter (fun e => decide (mf < e.frequency)) := List.get?_mem hg
  have hsplit := List.mem_filter.mp hef
  refine ⟨e, hsplit.1, by simpa using hsplit.2, ?_⟩
  simp only [pick_random_above_frequency]
  rw [hg]
  rfl

theorem pick_surjective (entries : List WordEntry) (mf : Nat) :
    ∀ e ∈ entries, mf < e.frequency →
      ∃ v, pick_random_above_frequency entries mf v = e.word := by
  intro e he hf
  have hef : e ∈ entries.filter (fun e => decide (mf < e.frequency)) :=
    List.mem_filter.mpr ⟨he, by simpa using hf⟩
  rcases List.mem_iff_get.mp hef with ⟨i, hi⟩
  refine ⟨i.val, ?_⟩
  have hget : (entries.filter (fun e => decide (mf < e.frequency))).get? i.val = some e := by
    rw [List.get?_eq_get i.isLt]
    exact congrArg some hi
  simp only [pick_random_above_frequency]
  rw [Nat.mod_eq_of_lt i.isLt, hget]
  rfl

theorem card_mod_preimage (L i : Nat) (h : i < L) :
    ((Finset.range L).filter (fun v => v % L = i)).card = 1 := by
  have hset : (Finset.range L).filter (fun v => v % L = i) = {i} := by
    ext v
    simp only [Finset.mem_filter, Finset.mem_range, Finset.mem_singleton]
    constructor
    · rintro ⟨hv, he⟩
      rw [Nat.mod_eq_of_lt hv] at he
      exact he
    · rintro rfl
      exact ⟨h, Nat.mod_eq_of_lt h⟩
  rw [hset, Finset.card_singleton]

/-- C6: for every WordEntry list and min_frequency, the generator keeps
exactly the entries with frequency strictly greater than min_frequency, picks
uniformly at random among them (every raw draw lands on a filtered entry,
every filtered entry is reachable, and each filtered index has exactly one
preimage among the raw draws below the filtered length), and when this
filtered subset is empty the chosen word is the empty string (no fallback
word, no error). -/
theorem pick_random_above_frequency_spec :
    ∀ (word_entries : List WordEntry) (min_frequency : Nat),
      (∀ v, word_entries.filter (fun e => decide (min_frequency < e.frequency)) = [] →
        pick_random_above_frequency word_entries min_frequency v = "")
      ∧ (∀ v, word_entries.filter (fun e => decide (min_frequency < e.frequency)) ≠ [] →
        ∃ e ∈ word_entries, min_frequency < e.frequency ∧
          pick_random_above_frequency word_entries min_frequency v = e.word)
      ∧ (∀ e ∈ word_entries, min_frequency < e.frequency →
        ∃ v, pick_random_above_frequency word_entries min_frequency v = e.word)
      ∧ (∀ i, i < (word_entries.filter
          (fun e => decide (min_frequency < e.frequency))).length →
        ((Finset.range (word_entries.filter
            (fun e => decide (min_frequency < e.frequency))).length).filter
          (fun v => v % (word_entries.filter
            (fun e => decide (min_frequency < e.frequency))).length = i)).card = 1) :=
  fun entries mf =>
    ⟨fun v h => pick_filter_empty entries mf v h,
     fun v h => pick_mem entries mf v h,
     pick_surjective entries mf,
     fun i hi => card_mod_preimage _ i hi⟩

theorem pick_random_above_frequency_spec_witness :
    pick_random_above_frequency [{ word := "cat", frequency := 5 }] 10 0 = ""
    ∧ ∃ v, pick_random_above_frequency [{ word := "dog", frequency := 50 }] 10 v = "dog" := by
  constructor
  · exact (pick_random_above_frequency_spec [{ word := "cat", frequency := 5 }] 10).1 0
      (by decide)
  · exact (pick_random_above_frequency_spec [{ word := "dog", frequency := 50 }] 10).2.2.1
      { word := "dog", frequency := 50 } (by decide) (by decide)

/-! ## The fetch/build pipeline skips only when the whole cache is present -/

theorem load_or_generate_skip (remoteDict : DictDir) (remoteCorpus : List String)
    (st : Storage) (h : word_lists_exist st = true) :
    ∃ wl, load_or_generate_word_lists remoteDict remoteCorpus st false = some (st, wl) := by
  have hparts := h
  unfold word_lists_exist at hparts
  simp only [Bool.and_eq_true, Option.isSome_iff_exists] at hparts
  obtain ⟨⟨⟨⟨a, ha⟩, ⟨n, hn⟩⟩, ⟨v, hv⟩⟩, ⟨d, hd⟩⟩ := hparts
  refine ⟨load_all_word_lists a n v d, ?_⟩
  simp [load_or_generate_word_lists, h, load_all_word_lists_fs, ha, hn, hv, hd]

/-- C5 counterexample: the dictionary index subdirectory exists and the force
flag is not set, yet the pipeline downloads and overwrites the dictionary
(the gate is the presence of the four derived files, not of the dict
subdirectory). -/
theorem lexical_fetcher_not_noop_counterexample :
    dict_present_cache_incomplete.dict.isSome = true
    ∧ (load_or_generate_word_lists
        { index_adj := ["axx 1"], index_noun := [], index_verb := [], index_adv := [] }
        [] dict_present_cache_incomplete false).map (fun x => x.1.dict) ≠
      some dict_present_cache_incomplete.dict := by decide

/-- C5 (amended): the pipeline is a no-op exactly when all four derived
word-list files exist and the force flag is not set; the dict subdirectory is
not consulted. -/
theorem fetch_pipeline_noop_when_cache_complete :
    ∀ (remoteDict : DictDir) (remoteCorpus : List String) (st : Storage),
      word_lists_exist st = true →
      (load_or_generate_word_lists remoteDict remoteCorpus st false).map Prod.fst = some st := by
  intro remoteDict remoteCorpus st h
  rcases load_or_generate_skip remoteDict remoteCorpus st h with ⟨wl, hw⟩
  rw [hw]
  rfl

theorem fetch_pipeline_noop_when_cache_complete_witness :
    (load_or_generate_word_lists
      { index_adj := [], index_noun := [], index_verb := [], index_adv := [] }
      [] cache_complete_storage false).map Prod.fst = some cache_complete_storage :=
  fetch_pipeline_noop_when_cache_complete _ [] cache_complete_storage (by decide)

/-- C4 counterexample: the derived adjectives file exists and was not deleted
by the caller, no full rebuild was forced, and yet the builder overwrites it
(because a different derived file was missing, the whole pipeline reruns and
regenerates every output file). -/
theorem builder_overwrites_existing_file_counterexample :
    adjectives_present_nouns_missing.adjectives_txt = some ["keep 1"]
    ∧ (load_or_generate_word_lists
        { index_adj := [], index_noun := [], index_verb := [], index_adv := [] }
        [] adjectives_present_nouns_missing false).map (fun x => x.1.adjectives_txt) =
      some (some [])
    ∧ ¬(some ([] : List String) = some ["keep 1"]) := by decide

/-- C4 (amended): an already-existing derived output file is left unchanged
only when every one of the four derived files exists and no rebuild is
forced, in which case the whole build is skipped; the builder itself never
skips individual files. -/
theorem builder_preserves_files_when_cache_complete :
    ∀ (remoteDict : DictDir) (remoteCorpus : List String) (st : Storage),
      word_lists_exist st = true →
      (load_or_generate_word_lists remoteDict remoteCorpus st false).map
        (fun x => (x.1.adjectives_txt, x.1.nouns_txt, x.1.verbs_txt, x.1.adverbs_txt)) =
      some (st.adjectives_txt, st.nouns_txt, st.verbs_txt, st.adverbs_txt) := by
  intro remoteDict remoteCorpus st h
  rcases load_or_generate_skip remoteDict remoteCorpus st h with ⟨wl, hw⟩
  rw [hw]
  rfl

theorem builder_preserves_files_when_cache_complete_witness :
    (load_or_generate_word_lists
      { index_adj := [], index_noun := [], index_verb := [], index_adv := [] }
      [] cache_complete_storage2 false).map
        (fun x => (x.1.adjectives_txt, x.1.nouns_txt, x.1.verbs_txt, x.1.adverbs_txt)) =
      some (cache_complete_storage2.adjectives_txt, cache_complete_storage2.nouns_txt,
        cache_complete_storage2.verbs_txt, cache_complete_storage2.adverbs_txt) :=
  builder_preserves_files_when_cache_complete _ [] cache_complete_storage2 (by decide)

/-! ## Characters of the decimal numeric token -/

theorem string_data_append (a b : String) : (a ++ b).data = a.data ++ b.data := rfl

theorem string_empty_data : ("" : String).data = [] := rfl

theorem dash_data : ("-" : String).data = ['-'] := rfl

theorem digit_char_range :
    ∀ k, k < 10 → 48 ≤ (Char.ofNat (48 + k)).toNat ∧ (Char.ofNat (48 + k)).toNat ≤ 57 := by
  decide

theorem natDigitsAux_chars : ∀ (fuel n : Nat) (acc : List Char),
    (∀ c ∈ acc, 48 ≤ c.toNat ∧ c.toNat ≤ 57) →
    ∀ c ∈ natDigitsAux fuel n acc, 48 ≤ c.toNat ∧ c.toNat ≤ 57 := by
  intro fuel
  induction fuel with
  | zero =>
    intro n acc hacc c hc
    simp only [natDigitsAux] at hc
    exact hacc c hc
  | succ fuel ih =>
    intro n acc hacc c hc
    simp only [natDigitsAux] at hc
    split at hc
    · rcases List.mem_cons.mp hc with rfl | hc
      · exact digit_char_range (n % 10) (Nat.mod_lt _ (by omega))
      · exact hacc c hc
    · refine ih (n / 10) _ ?_ c hc
      intro x hx
      rcases List.mem_cons.mp hx with rfl | hx
      · exact digit_char_range (n % 10) (Nat.mod_lt _ (by omega))
      · exact hacc x hx

theorem natDigits_chars (n : Nat) : ∀ c ∈ natDigits n, 48 ≤ c.toNat ∧ c.toNat ≤ 57 :=
  natDigitsAux_chars (n + 1) n [] (by simp)

theorem natDigits_no_hyphen (n : Nat) : ∀ c ∈ natDigits n, c ≠ '-' := by
  intro c hc he
  have hr := natDigits_chars n c hc
  rw [he] at hr
  exact absurd hr (by decide)

/-! ## Field structure of hyphen-joined strings -/

theorem splitHyphen_no_hyphen : ∀ (cs : List Char),
    (∀ c ∈ cs, c ≠ '-') → splitHyphen cs = [cs] := by
  intro cs
  induction cs with
  | nil =>
    intro _
    rfl
  | cons c rest ih =>
    intro h
    have hc : ¬(c = '-') := h c (List.mem_cons_self _ _)
    have hr : splitHyphen rest = [rest] := ih (fun x hx => h x (List.mem_cons_of_mem _ hx))
    simp only [splitHyphen]
    rw [if_neg hc, hr]

theorem splitHyphen_append : ∀ (a rest : List Char), (∀ c ∈ a, c ≠ '-') →
    splitHyphen (a ++ '-' :: rest) = a :: splitHyphen rest := by
  intro a
  induction a with
  | nil =>
    intro rest _
    simp [splitHyphen]
  | cons c a ih =>
    intro rest h
    have hc : ¬(c = '-') := h c (List.mem_cons_self _ _)
    have hr := ih rest (fun x hx => h x (List.mem_cons_of_mem _ hx))
    simp only [List.cons_append, splitHyphen]
    rw [if_neg hc]
    simp only [List.append_eq]
    rw [hr]

/-! ## Hyphen-freeness of the chosen components -/

theorem pick_cases (entries : List WordEntry) (mf v : Nat) :
    pick_random_above_frequency entries mf v = "" ∨
      ∃ e ∈ entries, pick_random_above_frequency entries mf v = e.word := by
  by_cases h : entries.filter (fun e => decide (mf < e.frequency)) = []
  · exact Or.inl (pick_filter_empty entries mf v h)
  · rcases pick_mem entries mf v h with ⟨e, he, _, hp⟩
    exact Or.inr ⟨e, he, hp⟩

theorem pick_hyphen_free (wl : WordLists) (h : hyphen_free_word_lists wl)
    (entries : List WordEntry) (hsub : ∀ e ∈ entries, e ∈ allEntries wl) (mf v : Nat) :
    ∀ c ∈ (pick_random_above_frequency entries mf v).data, c ≠ '-' := by
  rcases pick_cases entries mf v with hp | ⟨e, he, hp⟩ <;> rw [hp]
  · intro c hc
    rw [string_empty_data] at hc
    exact absurd hc (List.not_mem_nil c)
  · intro c hc
    exact h e (hsub e he) c hc

theorem component_hyphen_free (wl : WordLists) (h : hyphen_free_word_lists wl)
    (mf : Nat) (s : Nat → Nat) :
    (∀ c ∈ (adj_pick wl mf s).data, c ≠ '-')
    ∧ (∀ c ∈ (noun_pick wl mf s).data, c ≠ '-')
    ∧ (∀ c ∈ (verb_pick wl mf s).data, c ≠ '-')
    ∧ (∀ c ∈ (adv_pick wl mf s).data, c ≠ '-') := by
  refine ⟨?_, ?_, ?_, ?_⟩
  · unfold adj_pick
    cases ha : wl.adjectives with
    | Adjective entries =>
      refine pick_hyphen_free wl h entries ?_ mf (s 1)
      intro e he
      unfold allEntries
      refine List.mem_append_left _ (List.mem_append_left _ (List.mem_append_left _ ?_))
      rw [ha]
      exact he
    | Noun entries =>
      intro c hc
      rw [string_empty_data] at hc
      exact absurd hc (List.not_mem_nil c)
    | Verb entries =>
      intro c hc
      rw [string_empty_data] at hc
      exact absurd hc (List.not_mem_nil c)
    | Adverb entries =>
      intro c hc
      rw [string_empty_data] at hc
      exact absurd hc (List.not_mem_nil c)
  · unfold noun_pick
    cases ha : wl.nouns with
    | Noun entries =>
      refine pick_hyphen_free wl h entries ?_ mf (s 2)
      intro e he
      unfold allEntries
      refine List.mem_append_left _ (List.mem_append_left _ (List.mem_append_right _ ?_))
      rw [ha]
      exact he
    | Adjective entries =>
      intro c hc
      rw [string_empty_data] at hc
      exact absurd hc (List.not_mem_nil c)
    | Verb entries =>
      intro c hc
      rw [string_empty_data] at hc
      exact absurd hc (List.not_mem_nil c)
    | Adverb entries =>
      intro c hc
      rw [string_empty_data] at hc
      exact absurd hc (List.not_mem_nil c)
  · unfold verb_pick
    cases ha : wl.verbs with
    | Verb entries =>
      refine pick_hyphen_free wl h entries ?_ mf (s 3)
      intro e he
      unfold allEntries
      refine List.mem_append_left _ (List.mem_append_right _ ?_)
      rw [ha]
      exact he
    | Adjective entries =>
      intro c hc
      rw [string_empty_data] at hc
      exact absurd hc (List.not_mem_nil c)
    | Noun entries =>
      intro c hc
      rw [string_empty_data] at hc
      exact absurd hc (List.not_mem_nil c)
    | Adverb entries =>
      intro c hc
      rw [string_empty_data] at hc
      exact absurd hc (List.not_mem_nil c)
  · unfold adv_pick
    cases ha : wl.adverbs with
    | Adverb entries =>
      refine pick_hyphen_free wl h entries ?_ mf (s 4)
      intro e he
      unfold allEntries
      refine List.mem_append_right _ ?_
      rw [ha]
      exact he
    | Adjective entries =>
      intro c hc
      rw [string_empty_data] at hc
      exact absurd hc (List.not_mem_nil c)
    | Noun entries =>
      intro c hc
      rw [string_empty_data] at hc
      exact absurd hc (List.not_mem_nil c)
    | Verb entries =>
      intro c hc
      rw [string_empty_data] at hc
      exact absurd hc (List.not_mem_nil c)

theorem to_plural_hyphen_free (s : String) (h : ∀ c ∈ s.data, c ≠ '-') :
    ∀ c ∈ (to_plural s).data, c ≠ '-' := by
  unfold to_plural
  split_ifs with h1 h2 h3 h4
  · have hr : ∀ c ∈ ("men" : String).data, c ≠ '-' := by decide
    exact hr
  · have hr : ∀ c ∈ ("women" : String).data, c ≠ '-' := by decide
    exact hr
  · have hr : ∀ c ∈ ("children" : String).data, c ≠ '-' := by decide
    exact hr
  · intro c hc
    rw [string_data_append] at hc
    rcases List.mem_append.mp hc with hc | hc
    · exact h c hc
    · have hr : ∀ c ∈ ("es" : String).data, c ≠ '-' := by decide
      exact hr c hc
  · intro c hc
    rw [string_data_append] at hc
    rcases List.mem_append.mp hc with hc | hc
    · exact h c hc
    · have hr : ∀ c ∈ ("s" : String).data, c ≠ '-' := by decide
      exact hr c hc

theorem noun_field_hyphen_free (wl : WordLists) (mf : Nat) (s : Nat → Nat)
    (h : hyphen_free_word_lists wl) :
    ∀ c ∈ (noun_field wl mf s).data, c ≠ '-' := by
  simp only [noun_field]
  split_ifs with hcond
  · exact to_plural_hyphen_free _ (component_hyphen_free wl h mf s).2.1
  · exact (component_hyphen_free wl h mf s).2.1

/-! ## The assembled passphrase and its hyphen-delimited fields -/

theorem generate_password_eq (wl : WordLists) (mf : Nat) (s : Nat → Nat) :
    generate_password wl mf s =
      natString (draw_num (s 0)) ++ "-" ++ adj_pick wl mf s ++ "-" ++ noun_field wl mf s
        ++ "-" ++ verb_pick wl mf s ++ "-" ++ adv_pick wl mf s := by
  obtain ⟨wa, wn, wv, wd⟩ := wl
  cases wa <;> cases wn <;> cases wv <;> cases wd <;>
    simp [generate_password, adj_pick, noun_pick, noun_field, verb_pick, adv_pick]

theorem generate_password_fields (wl : WordLists) (mf : Nat) (s : Nat → Nat)
    (h : hyphen_free_word_lists wl) :
    splitHyphen (generate_password wl mf s).data =
      [natDigits (draw_num (s 0)), (adj_pick wl mf s).data, (noun_field wl mf s).data,
        (verb_pick wl mf s).data, (adv_pick wl mf s).data] := by
  rw [generate_password_eq]
  have hdata : (natString (draw_num (s 0)) ++ "-" ++ adj_pick wl mf s ++ "-"
        ++ noun_field wl mf s ++ "-" ++ verb_pick wl mf s ++ "-" ++ adv_pick wl mf s).data
      = natDigits (draw_num (s 0)) ++ '-' :: ((adj_pick wl mf s).data
        ++ '-' :: ((noun_field wl mf s).data
        ++ '-' :: ((verb_pick wl mf s).data ++ '-' :: (adv_pick wl mf s).data))) := by
    simp [string_data_append, dash_data, natString, List.append_assoc]
  rw [hdata]
  obtain ⟨hadj, hnoun, hverb, hadv⟩ := component_hyphen_free wl h mf s
  rw [splitHyphen_append _ _ (natDigits_no_hyphen _)]
  rw [splitHyphen_append _ _ hadj]
  rw [splitHyphen_append _ _ (noun_field_hyphen_free wl mf s h)]
  rw [splitHyphen_append _ _ hverb]
  rw [splitHyphen_no_hyphen _ hadv]

/-! ## Claims about the assembled passphrase -/

/-- C1 counterexample: loading four valid word-list files and generating a
passphrase yields a string with five hyphen-delimited fields, not three or
four. -/
theorem passphrase_field_count_counterexample :
    (splitHyphen (generate_password
        (load_all_word_lists ["mighty 20000"] ["cat 20000"] ["run 20000"] ["fast 20000"])
        10000 (fun _ => 0)).data).length ≠ 3
    ∧ (splitHyphen (generate_password
        (load_all_word_lists ["mighty 20000"] ["cat 20000"] ["run 20000"] ["fast 20000"])
        10000 (fun _ => 0)).data).length ≠ 4 := by decide

/-- C1 (amended): for every valid set of four word-list files whose loaded
words contain no hyphen characters, load_all_word_lists followed by
generate_password never panics (the embedding is total) and always returns a
string containing exactly five hyphen-delimited fields, matching the
frequency variant's format N-adjective-noun-verb-adverb. -/
theorem load_then_generate_field_count :
    ∀ (adjLines nounLines verbLines advLines : List String) (mf : Nat) (s : Nat → Nat),
      hyphen_free_word_lists (load_all_word_lists adjLines nounLines verbLines advLines) →
      (splitHyphen (generate_password
        (load_all_word_lists adjLines nounLines verbLines advLines) mf s).data).length = 5 := by
  intro adjLines nounLines verbLines advLines mf s h
  rw [generate_password_fields _ _ _ h]
  rfl

theorem load_then_generate_field_count_witness :
    (splitHyphen (generate_password
        (load_all_word_lists ["mighty 20000"] ["cat 20000"] ["run 20000"] ["fast 20000"])
        10000 (fun _ => 3)).data).length = 5 :=
  load_then_generate_field_count ["mighty 20000"] ["cat 20000"] ["run 20000"] ["fast 20000"]
    10000 (fun _ => 3) (by decide)

theorem card_draw_num_preimage (k : Nat) (h1 : 1 ≤ k) (h2 : k < 999) :
    ((Finset.range 998).filter (fun v => draw_num v = k)).card = 1 := by
  have hset : (Finset.range 998).filter (fun v => draw_num v = k) = {k - 1} := by
    ext v
    simp only [Finset.mem_filter, Finset.mem_range, Finset.mem_singleton, draw_num]
    constructor
    · rintro ⟨hv, he⟩
      rw [Nat.mod_eq_of_lt hv] at he
      omega
    · rintro rfl
      have hk : k - 1 < 998 := by omega
      rw [Nat.mod_eq_of_lt hk]
      exact ⟨hk, by omega⟩
  rw [hset, Finset.card_singleton]

/-- C3: for every loaded WordLists value and min_frequency, generate_password
returns a string of the form N-adjective-noun-verb-adverb where N is one
uniformly random integer drawn from the half-open interval from 1 to 999
(1 is at least N, N is below 999, and each value in that interval has exactly
one preimage among the raw draws below 998). -/
theorem generate_password_format :
    ∀ (wl : WordLists) (mf : Nat) (s : Nat → Nat),
      generate_password wl mf s =
        natString (draw_num (s 0)) ++ "-" ++ adj_pick wl mf s ++ "-" ++ noun_field wl mf s
          ++ "-" ++ verb_pick wl mf s ++ "-" ++ adv_pick wl mf s
      ∧ 1 ≤ draw_num (s 0) ∧ draw_num (s 0) < 999
      ∧ ∀ k, 1 ≤ k → k < 999 →
          ((Finset.range 998).filter (fun v => draw_num v = k)).card = 1 := by
  intro wl mf s
  refine ⟨generate_password_eq wl mf s, ?_, ?_, ?_⟩
  · simp [draw_num]
  · have hm : s 0 % 998 < 998 := Nat.mod_lt _ (by omega)
    simp only [draw_num]
    omega
  · intro k hk1 hk2
    exact card_draw_num_preimage k hk1 hk2

theorem generate_password_format_witness :
    generate_password (load_all_word_lists ["mighty 20000"] ["cat 20000"] ["run 20000"]
        ["fast 20000"]) 10000 (fun _ => 0) =
      natString (draw_num 0) ++ "-" ++ adj_pick (load_all_word_lists ["mighty 20000"]
        ["cat 20000"] ["run 20000"] ["fast 20000"]) 10000 (fun _ => 0) ++ "-"
        ++ noun_field (load_all_word_lists ["mighty 20000"] ["cat 20000"] ["run 20000"]
          ["fast 20000"]) 10000 (fun _ => 0) ++ "-"
        ++ verb_pick (load_all_word_lists ["mighty 20000"] ["cat 20000"] ["run 20000"]
          ["fast 20000"]) 10000 (fun _ => 0) ++ "-"
        ++ adv_pick (load_all_word_lists ["mighty 20000"] ["cat 20000"] ["run 20000"]
          ["fast 20000"]) 10000 (fun _ => 0)
    ∧ ((Finset.range 998).filter (fun v => draw_num v = 5)).card = 1 :=
  ⟨(generate_password_format (load_all_word_lists ["mighty 20000"] ["cat 20000"]
      ["run 20000"] ["fast 20000"]) 10000 (fun _ => 0)).1,
   (generate_password_format (load_all_word_lists ["mighty 20000"] ["cat 20000"]
      ["run 20000"] ["fast 20000"]) 10000 (fun _ => 0)).2.2.2 5 (by decide) (by decide)⟩

/-- C7: in generate_password, when the drawn number N equals 1 the chosen
noun is never pluralized, and when N is above 1 and the chosen noun is
non-empty the noun always has pluralization applied; an empty noun is never
pluralized (stated on the third hyphen-delimited field of the output, for
hyphen-free word lists). -/
theorem generate_password_pluralization :
    ∀ (wl : WordLists) (mf : Nat) (s : Nat → Nat),
      hyphen_free_word_lists wl →
        ((draw_num (s 0) = 1 →
          (splitHyphen (generate_password wl mf s).data).get? 2 =
            some (noun_pick wl mf s).data)
        ∧ (1 < draw_num (s 0) → ¬(noun_pick wl mf s = "") →
          (splitHyphen (generate_password wl mf s).data).get? 2 =
            some (to_plural (noun_pick wl mf s)).data)
        ∧ (noun_pick wl mf s = "" →
          (splitHyphen (generate_password wl mf s).data).get? 2 =
            some (noun_pick wl mf s).data)) := by
  intro wl mf s h
  have hg : (splitHyphen (generate_password wl mf s).data).get? 2 =
      some (noun_field wl mf s).data := by
    rw [generate_password_fields wl mf s h]
    rfl
  refine ⟨?_, ?_, ?_⟩
  · intro h1
    rw [hg]
    have hnf : noun_field wl mf s = noun_pick wl mf s := by
      simp only [noun_field, h1]
      rw [if_neg (show ¬(1 < 1 ∧ ¬(noun_pick wl mf s = "")) by simp)]
    rw [hnf]
  · intro h1 h2
    rw [hg]
    have hnf : noun_field wl mf s = to_plural (noun_pick wl mf s) := by
      simp only [noun_field]
      rw [if_pos ⟨h1, h2⟩]
    rw [hnf]
  · intro hn
    rw [hg]
    have hnf : noun_field wl mf s = noun_pick wl mf s := by
      simp only [noun_field, hn]
      simp
    rw [hnf]

theorem generate_password_pluralization_witness :
    (splitHyphen (generate_password (load_all_word_lists ["mighty 20000"] ["cat 20000"]
        ["run 20000"] ["fast 20000"]) 10000 (fun _ => 1)).data).get? 2 =
      some (to_plural (noun_pick (load_all_word_lists ["mighty 20000"] ["cat 20000"]
        ["run 20000"] ["fast 20000"]) 10000 (fun _ => 1))).data :=
  (generate_password_pluralization (load_all_word_lists ["mighty 20000"] ["cat 20000"]
      ["run 20000"] ["fast 20000"]) 10000 (fun _ => 1) (by decide)).2.1
    (by decide) (by decide)

/-- C8: for a fixed random-number-generator state, two runs of
generate_password on the same word lists and min_frequency produce the same
passphrase string; generation depends only on the five raw draws consumed,
so any two streams agreeing on those five values generate identical
passphrases. -/
theorem generate_password_deterministic :
    ∀ (wl : WordLists) (mf : Nat) (s1 s2 : Nat → Nat),
      (∀ i, i < 5 → s1 i = s2 i) →
      generate_password wl mf s1 = generate_password wl mf s2 := by
  intro wl mf s1 s2 h
  have h0 := h 0 (by omega)
  have h1 := h 1 (by omega)
  have h2 := h 2 (by omega)
  have h3 := h 3 (by omega)
  have h4 := h 4 (by omega)
  simp only [generate_password, h0, h1, h2, h3, h4]

theorem generate_password_deterministic_witness :
    generate_password (load_all_word_lists ["mighty 20000"] ["cat 20000"] ["run 20000"]
        ["fast 20000"]) 10000 (fun i => i) =
      generate_password (load_all_word_lists ["mighty 20000"] ["cat 20000"] ["run 20000"]
        ["fast 20000"]) 10000 (fun i => if i < 5 then i else 42) :=
  generate_password_deterministic
    (load_all_word_lists ["mighty 20000"] ["cat 20000"] ["run 20000"] ["fast 20000"])
    10000 (fun i => i) (fun i => if i < 5 then i else 42) (by decide)
